import Mathlib

/-!
Verification of the VideoMind timestamp-normalization logic.

The model below is a shallow embedding of the timestamp handling code of
the repository: the Python helpers time_to_seconds and validate_timestamps
and the seconds-mismatch reconciliation from the debugging guide, the
frontend helper formatSecondsToMMSS, the click handler
handleTimestampClick of VideoTimestamps.tsx, and the navigateToTime
function embedded in the browser extension content script.

Strings are modelled as lists of characters; Python and JavaScript
integers are modelled as Int (or Nat where the value is a count).
-/

namespace VideoMind

/-- Numeric value of a decimal digit character. -/
def digitVal (c : Char) : Nat := c.toNat - 48

/-- Value of a string of decimal digits, most significant first. -/
def digitsVal (l : List Char) : Nat := l.foldl (fun a c => 10 * a + digitVal c) 0

/-- Model of the Python built-in int applied to a string: an optional
sign followed by a nonempty run of decimal digits; anything else raises,
modelled as none. -/
def pyInt? (l : List Char) : Option Int :=
  match l with
  | [] => none
  | c :: rest =>
    if c = '-' then
      if rest.isEmpty then none
      else if rest.all Char.isDigit then some (-(digitsVal rest : Int)) else none
    else if c = '+' then
      if rest.isEmpty then none
      else if rest.all Char.isDigit then some ((digitsVal rest : Int)) else none
    else if (c :: rest).all Char.isDigit then some ((digitsVal (c :: rest) : Int))
    else none

/-- Model of the Python str.split of a string on the colon character. -/
def splitOnColon : List Char → List (List Char)
  | [] => [[]]
  | c :: cs =>
    if c = ':' then [] :: splitOnColon cs
    else
      match splitOnColon cs with
      | [] => [[c]]
      | g :: gs => (c :: g) :: gs

/-- Model of mapping int over the colon groups; a conversion failure in
any group aborts the whole mapping (the Python code catches the
ValueError and returns 0). -/
def mapPyInt : List (List Char) → Option (List Int)
  | [] => some []
  | g :: gs =>
    match pyInt? g, mapPyInt gs with
    | some v, some vs => some (v :: vs)
    | _, _ => none

/-- Embedding of time_to_seconds from the backend debugging guide:
split on the colon, convert every group with int, and apply the range
checks; every failure path returns 0. -/
def time_to_seconds (s : List Char) : Int :=
  match mapPyInt (splitOnColon s) with
  | some [m, sec] =>
      if m < 0 ∨ sec < 0 ∨ sec > 59 then 0 else m * 60 + sec
  | some [h, m, sec] =>
      if h < 0 ∨ m < 0 ∨ m > 59 ∨ sec < 0 ∨ sec > 59 then 0
      else h * 3600 + m * 60 + sec
  | _ => 0

/-- The success condition of time_to_seconds, read off from the checks
of the code (this is also the acceptance predicate of spec section 4.1):
exactly two or three groups, every group numeric, seconds group in
0..59, and for the three-group form also the minutes group in 0..59. -/
def timeValid (s : List Char) : Bool :=
  match mapPyInt (splitOnColon s) with
  | some [m, sec] => !(m < 0 ∨ sec < 0 ∨ sec > 59 : Bool)
  | some [h, m, sec] => !(h < 0 ∨ m < 0 ∨ m > 59 ∨ sec < 0 ∨ sec > 59 : Bool)
  | _ => false

/-- A timestamp record as exchanged between backend and frontend:
a display time string, a description, and an offset in seconds. -/
structure Timestamp where
  time : List Char
  description : List Char
  seconds : Int
deriving DecidableEq

/-- Embedding of the format check of validate_timestamps, the full-string
match of the pattern d{1,2}:d{2}(:d{2})? used by the code. -/
def timeFormatOk (s : List Char) : Bool :=
  match splitOnColon s with
  | [a, b] =>
      decide (a.length = 1 ∨ a.length = 2) && a.all Char.isDigit &&
      decide (b.length = 2) && b.all Char.isDigit
  | [a, b, c] =>
      decide (a.length = 1 ∨ a.length = 2) && a.all Char.isDigit &&
      decide (b.length = 2) && b.all Char.isDigit &&
      decide (c.length = 2) && c.all Char.isDigit
  | _ => false

/-- The rejection test of validate_timestamps against the maximum
duration. The Python condition is a truthiness test, so a missing or
zero maximum duration never rejects. -/
def rejectOverMax (maxDuration : Option Int) (s : Int) : Bool :=
  match maxDuration with
  | none => false
  | some m => if m = 0 then false else decide (s > m)

/-- One record passes validate_timestamps when its seconds are
non-negative, it is not over the (truthy) maximum duration, and its
display time matches the format pattern. -/
def keepTimestamp (maxDuration : Option Int) (ts : Timestamp) : Bool :=
  if ts.seconds < 0 then false
  else if rejectOverMax maxDuration ts.seconds then false
  else timeFormatOk ts.time

/-- Ordering of records by their seconds field, the sort key used by
validate_timestamps. -/
def secLE (a b : Timestamp) : Prop := a.seconds ≤ b.seconds

instance : DecidableRel secLE := fun a b => Int.decLe a.seconds b.seconds

instance : IsTotal Timestamp secLE := ⟨fun a b => le_total a.seconds b.seconds⟩

instance : IsTrans Timestamp secLE := ⟨fun _ _ _ h1 h2 => le_trans h1 h2⟩

/-- Embedding of validate_timestamps from the backend debugging guide:
filter by the record checks in order, then sort by seconds. The Python
list sort is stable, modelled by insertion sort with a non-strict
comparison. -/
def validate_timestamps (l : List Timestamp) (maxDuration : Option Int) :
    List Timestamp :=
  List.insertionSort secLE (l.filter (keepTimestamp maxDuration))

/-- Embedding of the seconds-mismatch reconciliation of the debugging
guide: recompute the offset from the display string and overwrite the
stated seconds whenever the two disagree. -/
def reconcile (ts : Timestamp) : Timestamp :=
  if time_to_seconds ts.time ≠ ts.seconds then
    ⟨ts.time, ts.description, time_to_seconds ts.time⟩
  else ts

/-- Modelled from the spec: the backend entry point (main.py, whose body
is not under src, only the debugging guide documents it) applies the
seconds-mismatch reconciliation to each candidate record while parsing
the response and then runs validate_timestamps, following the pipeline
order of spec sections 4.2, 4.3 and 4.4. -/
def pipeline (l : List Timestamp) (maxDuration : Option Int) :
    List Timestamp :=
  validate_timestamps (l.map reconcile) maxDuration

/-- Decimal digit characters of a positive number, most significant
first; the first argument is structural fuel bounding the recursion
depth. -/
def natCharsAux : Nat → Nat → List Char
  | 0, _ => []
  | fuel + 1, n =>
    if n = 0 then []
    else natCharsAux fuel (n / 10) ++ [Char.ofNat (48 + n % 10)]

/-- Embedding of the JavaScript number toString for a non-negative
integer: its decimal digit characters. -/
def natChars (n : Nat) : List Char :=
  if n = 0 then ['0'] else natCharsAux n n

/-- Embedding of the JavaScript padStart with width two and pad
character zero. -/
def padStart2 (l : List Char) : List Char :=
  if l.length < 2 then List.replicate (2 - l.length) '0' ++ l else l

/-- Embedding of formatSecondsToMMSS from the frontend analyzer
component: minutes and seconds by division by 60, both rendered with
padStart two. -/
def formatSecondsToMMSS (n : Nat) : List Char :=
  padStart2 (natChars (n / 60)) ++ ':' :: padStart2 (natChars (n % 60))

/-- Embedding of handleTimestampClick of VideoTimestamps.tsx. The
optional onTimestampClick property is modelled by the flag hasCallback;
the result is the seconds value handed to the callback, or none when no
navigation happens. -/
def handleTimestampClick (hasCallback : Bool) (ts : Timestamp) : Option Int :=
  if ts.seconds < 0 then none
  else if ts.seconds > 7200 then none
  else if hasCallback then some ts.seconds else none

/-- Embedding of navigateToTime of the VideoDisplay copy embedded in the
extension content script. The two flags model whether the iframe
reference is available and whether a video id could be extracted; the
result is the offset written into the player url, or none when the
player is not touched. -/
def navigateToTime (iframeAvailable : Bool) (videoIdFound : Bool)
    (seconds : Int) : Option Int :=
  if seconds < 0 then none
  else if seconds > 7200 then none
  else if iframeAvailable && videoIdFound then some seconds else none

theorem digit_ne_colon {c : Char} (h : c.isDigit = true) : ¬ c = ':' := by
  intro he
  subst he
  exact absurd h (by decide)

theorem digit_ne_minus {c : Char} (h : c.isDigit = true) : ¬ c = '-' := by
  intro he
  subst he
  exact absurd h (by decide)

theorem digit_ne_plus {c : Char} (h : c.isDigit = true) : ¬ c = '+' := by
  intro he
  subst he
  exact absurd h (by decide)

theorem all_digit_no_colon {l : List Char} (h : l.all Char.isDigit = true) :
    ∀ c ∈ l, ¬ c = ':' := by
  intro c hc
  exact digit_ne_colon (List.all_eq_true.mp h c hc)

theorem splitOnColon_no_colon (l : List Char) (h : ∀ c ∈ l, ¬ c = ':') :
    splitOnColon l = [l] := by
  induction l with
  | nil => rfl
  | cons c cs ih =>
    have hc : ¬ c = ':' := h c (List.mem_cons_self c cs)
    have hcs : splitOnColon cs = [cs] := ih (fun x hx => h x (List.mem_cons_of_mem c hx))
    simp [splitOnColon, hc, hcs]

theorem splitOnColon_append (a b : List Char) (h : ∀ c ∈ a, ¬ c = ':') :
    splitOnColon (a ++ ':' :: b) = a :: splitOnColon b := by
  induction a with
  | nil => simp [splitOnColon]
  | cons c a2 ih =>
    have hc : ¬ c = ':' := h c (List.mem_cons_self c a2)
    have ha2 := ih (fun x hx => h x (List.mem_cons_of_mem c hx))
    rw [List.cons_append, splitOnColon, if_neg hc, ha2]

theorem pyInt?_digits {l : List Char} (h1 : l ≠ [])
    (h2 : l.all Char.isDigit = true) : pyInt? l = some ((digitsVal l : Nat) : Int) := by
  match l with
  | [] => exact absurd rfl h1
  | c :: rest =>
    have hc : c.isDigit = true := List.all_eq_true.mp h2 c (List.mem_cons_self c rest)
    simp [pyInt?, digit_ne_minus hc, digit_ne_plus hc, h2]

theorem time_to_seconds_two (a b : List Char) (ha : a ≠ []) (hb : b ≠ [])
    (hda : a.all Char.isDigit = true) (hdb : b.all Char.isDigit = true)
    (hsec : digitsVal b ≤ 59) :
    time_to_seconds (a ++ ':' :: b) = ((digitsVal a * 60 + digitsVal b : Nat) : Int) := by
  have hsplit : splitOnColon (a ++ ':' :: b) = [a, b] := by
    rw [splitOnColon_append a b (all_digit_no_colon hda),
      splitOnColon_no_colon b (all_digit_no_colon hdb)]
  unfold time_to_seconds
  rw [hsplit]
  simp only [mapPyInt, pyInt?_digits ha hda, pyInt?_digits hb hdb]
  rw [if_neg (by omega)]
  push_cast
  ring

theorem time_to_seconds_three (a b c : List Char) (ha : a ≠ []) (hb : b ≠ [])
    (hc : c ≠ []) (hda : a.all Char.isDigit = true) (hdb : b.all Char.isDigit = true)
    (hdc : c.all Char.isDigit = true) (hmin : digitsVal b ≤ 59)
    (hsec : digitsVal c ≤ 59) :
    time_to_seconds (a ++ ':' :: (b ++ ':' :: c)) =
      ((digitsVal a * 3600 + digitsVal b * 60 + digitsVal c : Nat) : Int) := by
  have hsplit : splitOnColon (a ++ ':' :: (b ++ ':' :: c)) = [a, b, c] := by
    rw [splitOnColon_append a _ (all_digit_no_colon hda),
      splitOnColon_append b c (all_digit_no_colon hdb),
      splitOnColon_no_colon c (all_digit_no_colon hdc)]
  unfold time_to_seconds
  rw [hsplit]
  simp only [mapPyInt, pyInt?_digits ha hda, pyInt?_digits hb hdb, pyInt?_digits hc hdc]
  rw [if_neg (by omega)]
  push_cast
  ring

theorem time_to_seconds_nonneg (s : List Char) : 0 ≤ time_to_seconds s := by
  unfold time_to_seconds
  split
  all_goals try split_ifs
  all_goals omega

theorem reconcile_seconds (ts : Timestamp) :
    (reconcile ts).seconds = time_to_seconds ts.time := by
  unfold reconcile
  split_ifs with h
  · rfl
  · exact (not_not.mp h).symm

theorem reconcile_time (ts : Timestamp) : (reconcile ts).time = ts.time := by
  unfold reconcile
  split_ifs <;> rfl

theorem reconcile_description (ts : Timestamp) :
    (reconcile ts).description = ts.description := by
  unfold reconcile
  split_ifs <;> rfl

theorem reconcile_idem (ts : Timestamp) : reconcile (reconcile ts) = reconcile ts := by
  have h1 := reconcile_seconds ts
  have h2 := reconcile_time ts
  rw [reconcile, h2, h1, if_neg (by simp)]

example : time_to_seconds (("1:30").toList) = 90 := by decide
example : time_to_seconds (("1:60").toList) = 0 := by decide
example : time_to_seconds (("1:02:03").toList) = 3723 := by decide
example : time_to_seconds (("60:00").toList) = 3600 := by decide
example : time_to_seconds (("bad").toList) = 0 := by decide
example : timeValid (("1:60").toList) = false := by decide
example : timeFormatOk (("1:60").toList) = true := by decide
example : timeFormatOk (("bad").toList) = false := by decide
example : formatSecondsToMMSS 90 = ("01:30").toList := by decide
example : formatSecondsToMMSS 3600 = ("60:00").toList := by decide

theorem filter_secEq_orderedInsert (k : Int) (x : Timestamp) (l : List Timestamp) :
    (List.orderedInsert secLE x l).filter (fun r => decide (r.seconds = k)) =
      ((x :: l).filter (fun r => decide (r.seconds = k))) := by
  induction l with
  | nil => rfl
  | cons y ys ih =>
    by_cases hxy : secLE x y
    · rw [List.orderedInsert, if_pos hxy]
    · rw [List.orderedInsert, if_neg hxy]
      by_cases hx : x.seconds = k
      · have hy : ¬ y.seconds = k := by
          intro hy
          exact hxy (le_of_eq (hx.trans hy.symm))
        simp only [List.filter_cons, decide_eq_true_eq, hx, hy, if_true, if_false,
          ite_true, ite_false, if_pos, if_neg, decide_True, decide_False] at ih ⊢
        simp [hy, ih, hx]
      · simp [List.filter_cons, hx, ih]

theorem filter_secEq_insertionSort (k : Int) (l : List Timestamp) :
    (List.insertionSort secLE l).filter (fun r => decide (r.seconds = k)) =
      l.filter (fun r => decide (r.seconds = k)) := by
  induction l with
  | nil => rfl
  | cons a l ih =>
    rw [List.insertionSort, filter_secEq_orderedInsert]
    simp [List.filter_cons, ih]

theorem mem_validate (r : Timestamp) (l : List Timestamp) (m : Option Int) :
    r ∈ validate_timestamps l m ↔ r ∈ l ∧ keepTimestamp m r = true := by
  unfold validate_timestamps
  rw [List.mem_insertionSort, List.mem_filter]

theorem keepTimestamp_format {m : Option Int} {r : Timestamp}
    (h : keepTimestamp m r = true) : timeFormatOk r.time = true := by
  unfold keepTimestamp at h
  split_ifs at h
  exact h

theorem validate_sorted (l : List Timestamp) (m : Option Int) :
    List.Sorted secLE (validate_timestamps l m) :=
  List.sorted_insertionSort secLE (l.filter (keepTimestamp m))

theorem rejectOverMax_some {m : Int} (hm : m ≠ 0) (s : Int) :
    rejectOverMax (some m) s = decide (s > m) := by
  show (if m = 0 then false else decide (s > m)) = decide (s > m)
  rw [if_neg hm]

theorem keepTimestamp_le_max {m : Int} {r : Timestamp} (hm : m ≠ 0)
    (h : keepTimestamp (some m) r = true) : r.seconds ≤ m := by
  unfold keepTimestamp at h
  by_cases h1 : r.seconds < 0
  · rw [if_pos h1] at h
    exact absurd h (by simp)
  · rw [if_neg h1, rejectOverMax_some hm] at h
    by_cases h2 : r.seconds > m
    · simp [h2] at h
    · omega

/-- Claim C1 counterexample: on the failing input 1:60 the parser returns the
integer 0, the very value it also returns for the legitimate input 0:00, so the
failure result is the integer 0 and not a distinguished invalid result. -/
theorem C1_zero_sentinel_cex :
    time_to_seconds (("1:60").toList) = 0 ∧
    time_to_seconds (("0:00").toList) = 0 := by
  exact ⟨by decide, by decide⟩

/-- Claim C1 (amended): for every input string on which time-string parsing
fails (wrong group count, non-numeric group, or an out-of-range component such
as a seconds group over 59), the parser returns the integer 0 after logging,
rather than a distinguished invalid result; in particular the failure value
collides with the legitimate offset 0. -/
theorem C1_invalid_returns_zero (s : List Char) (h : timeValid s = false) :
    time_to_seconds s = 0 := by
  unfold timeValid at h
  unfold time_to_seconds
  rcases hm : mapPyInt (splitOnColon s) with _ | l
  · rfl
  · rw [hm] at h
    rcases l with _ | ⟨a, _ | ⟨b, _ | ⟨c, rest⟩⟩⟩
    · rfl
    · rfl
    · dsimp only at h
      have hcond : a < 0 ∨ b < 0 ∨ b > 59 := by
        cases hd : decide (a < 0 ∨ b < 0 ∨ b > 59)
        · rw [hd] at h
          exact absurd h (by decide)
        · exact of_decide_eq_true hd
      simp [hcond]
    · rcases rest with _ | ⟨d, rest2⟩
      · dsimp only at h
        have hcond : a < 0 ∨ b < 0 ∨ b > 59 ∨ c < 0 ∨ c > 59 := by
          cases hd : decide (a < 0 ∨ b < 0 ∨ b > 59 ∨ c < 0 ∨ c > 59)
          · rw [hd] at h
            exact absurd h (by decide)
          · exact of_decide_eq_true hd
        simp [hcond]
      · rfl

/-- Witness for the amended claim C1 at the concrete failing input 1:60. -/
theorem C1_invalid_returns_zero_witness :
    timeValid (("1:60").toList) = false ∧ time_to_seconds (("1:60").toList) = 0 :=
  ⟨by decide, C1_invalid_returns_zero (("1:60").toList) (by decide)⟩

/-- Claim C2 counterexample: two records with identical offset and identical
description both appear in the output of validate_timestamps, contradicting
the claim that only the first occurrence appears. -/
theorem C2_duplicates_kept_cex :
    validate_timestamps
        [⟨("01:30").toList, ("Intro").toList, 90⟩,
         ⟨("01:30").toList, ("Intro").toList, 90⟩] none =
      [⟨("01:30").toList, ("Intro").toList, 90⟩,
       ⟨("01:30").toList, ("Intro").toList, 90⟩] := by
  decide

/-- Claim C2 (amended): the range and format filter performs no duplicate
suppression at all: the output of validate_timestamps is a permutation of the
records passing the range and format checks, so exact duplicates (same offset
and same description) are all retained. -/
theorem C2_no_duplicate_suppression (l : List Timestamp) (m : Option Int) :
    (validate_timestamps l m).Perm (l.filter (keepTimestamp m)) :=
  List.perm_insertionSort secLE (l.filter (keepTimestamp m))

/-- Claim C3 counterexample: with no maximum duration supplied, a record with
offset 10000 seconds, far beyond 7200, is kept by validate_timestamps, so no
default ceiling of 7200 is enforced. -/
theorem C3_no_default_ceiling_cex :
    validate_timestamps [⟨("2:46:40").toList, ("X").toList, 10000⟩] none =
      [⟨("2:46:40").toList, ("X").toList, 10000⟩] := by
  decide

/-- Claim C3 (amended): when a nonzero maximum duration is supplied, every
record of the output of validate_timestamps has offset at most that maximum;
when no maximum duration is supplied, the filter applies no upper bound at all
(the record check reduces to non-negativity plus the format pattern), so
offsets beyond 7200 are not rejected. -/
theorem C3_max_duration_bound :
    (∀ (l : List Timestamp) (m : Int) (r : Timestamp),
      r ∈ validate_timestamps l (some m) → m ≠ 0 → r.seconds ≤ m) ∧
    (∀ r : Timestamp,
      keepTimestamp none r = (decide (0 ≤ r.seconds) && timeFormatOk r.time)) := by
  constructor
  · intro l m r hr hm
    exact keepTimestamp_le_max hm ((mem_validate r l (some m)).mp hr).2
  · intro r
    unfold keepTimestamp rejectOverMax
    by_cases h : r.seconds < 0
    · simp [h, show ¬ (0 ≤ r.seconds) from by omega]
    · simp [h, show (0 ≤ r.seconds) from by omega]

/-- Witness for claim C3: with maximum 600 supplied, a kept record with offset
500 is indeed bounded by 600. -/
theorem C3_max_duration_bound_witness :
    (⟨("08:20").toList, ("A").toList, 500⟩ : Timestamp).seconds ≤ 600 :=
  C3_max_duration_bound.1 [⟨("08:20").toList, ("A").toList, 500⟩] 600
    ⟨("08:20").toList, ("A").toList, 500⟩ (by decide) (by decide)

/-- Claim C4 counterexample: the record with display time 1:60 fails the
parser, yet it survives the whole pipeline: its offset is rewritten to 0 and
the record appears in the output, contradicting the claim that such a record
is rejected. -/
theorem C4_parse_invalid_record_kept_cex :
    timeValid (("1:60").toList) = false ∧
    pipeline [⟨("1:60").toList, ("X").toList, 42⟩] none =
      [⟨("1:60").toList, ("X").toList, 0⟩] := by
  exact ⟨by decide, by decide⟩

/-- Claim C4 (amended): with no duration ceiling, a record survives the
pipeline exactly when its reconciled form matches the format pattern
d{1,2}:d{2}(:d{2})?: records failing the pattern (such as with display time
bad) are dropped while the rest of the batch is retained, but a display time
matching the pattern while failing the parser (such as 1:60) is kept with its
offset rewritten to 0. -/
theorem C4_format_decides_membership (l : List Timestamp) (r : Timestamp) :
    r ∈ pipeline l none ↔ r ∈ l.map reconcile ∧ timeFormatOk r.time = true := by
  unfold pipeline
  rw [mem_validate]
  constructor
  · rintro ⟨h1, h2⟩
    exact ⟨h1, keepTimestamp_format h2⟩
  · rintro ⟨h1, h2⟩
    refine ⟨h1, ?_⟩
    obtain ⟨x, hx, rfl⟩ := List.mem_map.mp h1
    have hnn : 0 ≤ (reconcile x).seconds := by
      rw [reconcile_seconds]
      exact time_to_seconds_nonneg x.time
    unfold keepTimestamp rejectOverMax
    simp [show ¬ ((reconcile x).seconds < 0) from by omega, h2]

/-- Claim C5: every two-group string of digit groups with seconds group at
most 59 parses to minutes times 60 plus seconds, the minutes group being
unconstrained above, and every three-group string of digit groups with minutes
and seconds groups at most 59 parses to hours times 3600 plus minutes times 60
plus seconds. -/
theorem C5_valid_forms_parse :
    (∀ a b : List Char, a ≠ [] → b ≠ [] → a.all Char.isDigit = true →
      b.all Char.isDigit = true → digitsVal b ≤ 59 →
      time_to_seconds (a ++ ':' :: b) =
        ((digitsVal a * 60 + digitsVal b : Nat) : Int)) ∧
    (∀ a b c : List Char, a ≠ [] → b ≠ [] → c ≠ [] →
      a.all Char.isDigit = true → b.all Char.isDigit = true →
      c.all Char.isDigit = true → digitsVal b ≤ 59 → digitsVal c ≤ 59 →
      time_to_seconds (a ++ ':' :: (b ++ ':' :: c)) =
        ((digitsVal a * 3600 + digitsVal b * 60 + digitsVal c : Nat) : Int)) :=
  ⟨time_to_seconds_two, fun a b c ha hb hc hda hdb hdc hmin hsec =>
    time_to_seconds_three a b c ha hb hc hda hdb hdc hmin hsec⟩

/-- Witness for claim C5 at the concrete inputs 60:00 and 1:02:03. -/
theorem C5_valid_forms_parse_witness :
    time_to_seconds (("60:00").toList) = 3600 ∧
    time_to_seconds (("1:02:03").toList) = 3723 := by
  constructor
  · have e : ("60:00").toList = ("60").toList ++ ':' :: ("00").toList := by decide
    have h := C5_valid_forms_parse.1 (("60").toList) (("00").toList)
      (by decide) (by decide) (by decide) (by decide) (by decide)
    rw [e, h]
    decide
  · have e : ("1:02:03").toList =
        ("1").toList ++ ':' :: (("02").toList ++ ':' :: ("03").toList) := by decide
    have h := C5_valid_forms_parse.2 (("1").toList) (("02").toList) (("03").toList)
      (by decide) (by decide) (by decide) (by decide) (by decide) (by decide)
      (by decide) (by decide)
    rw [e, h]
    decide

/-- Claim C6: whenever the display time of a record parses to a valid value
differing from the stated offset, the reconciliation overwrites the offset
with the parsed value, keeping time and description unchanged. -/
theorem C6_reconcile_overwrites (ts : Timestamp) ( _hv : timeValid ts.time = true)
    (hne : time_to_seconds ts.time ≠ ts.seconds) :
    reconcile ts = ⟨ts.time, ts.description, time_to_seconds ts.time⟩ := by
  unfold reconcile
  rw [if_pos hne]

/-- Witness for claim C6: the record with time 01:30 and stated seconds 95 is
corrected to seconds 90. -/
theorem C6_reconcile_overwrites_witness :
    reconcile ⟨("01:30").toList, ("Intro").toList, 95⟩ =
      ⟨("01:30").toList, ("Intro").toList, 90⟩ := by
  have h := C6_reconcile_overwrites ⟨("01:30").toList, ("Intro").toList, 95⟩
    (by decide) (by decide)
  rw [h]
  decide

/-- Claim C7: the output of validate_timestamps is sorted ascending by the
seconds field, and for every offset value the subsequence of output records
carrying that offset is exactly the subsequence of kept input records carrying
it, in input order: equal offsets keep their original relative order. -/
theorem C7_sorted_and_stable (l : List Timestamp) (m : Option Int) :
    List.Sorted secLE (validate_timestamps l m) ∧
    ∀ k : Int,
      (validate_timestamps l m).filter (fun r => decide (r.seconds = k)) =
        (l.filter (keepTimestamp m)).filter (fun r => decide (r.seconds = k)) := by
  refine ⟨validate_sorted l m, fun k => ?_⟩
  unfold validate_timestamps
  exact filter_secEq_insertionSort k (l.filter (keepTimestamp m))

theorem mem_pipeline_reconciled {r : Timestamp} {l : List Timestamp}
    {m : Option Int} (hr : r ∈ pipeline l m) : reconcile r = r := by
  unfold pipeline at hr
  obtain ⟨hmem, _⟩ := (mem_validate r (l.map reconcile) m).mp hr
  obtain ⟨x, _, rfl⟩ := List.mem_map.mp hmem
  exact reconcile_idem x

theorem mem_pipeline_keep {r : Timestamp} {l : List Timestamp}
    {m : Option Int} (hr : r ∈ pipeline l m) : keepTimestamp m r = true := by
  unfold pipeline at hr
  exact ((mem_validate r (l.map reconcile) m).mp hr).2

/-- Claim C8: the full pipeline (reconcile each record, filter, sort) is
idempotent: run on its own output it returns that output unchanged, with no
further corrections or drops. -/
theorem C8_pipeline_idempotent (l : List Timestamp) (m : Option Int) :
    pipeline (pipeline l m) m = pipeline l m := by
  have hmap : (pipeline l m).map reconcile = pipeline l m := by
    rw [List.map_congr_left (fun x hx => mem_pipeline_reconciled hx)]
    simp
  have hfilter : (pipeline l m).filter (keepTimestamp m) = pipeline l m :=
    List.filter_eq_self.mpr (fun x hx => mem_pipeline_keep hx)
  have hsorted : List.Sorted secLE (pipeline l m) :=
    validate_sorted (l.map reconcile) m
  show validate_timestamps ((pipeline l m).map reconcile) m = pipeline l m
  rw [hmap]
  unfold validate_timestamps
  rw [hfilter]
  exact hsorted.insertionSort_eq

theorem digitVal_ofNat (d : Nat) (h : d < 10) :
    digitVal (Char.ofNat (48 + d)) = d := by
  interval_cases d <;> decide

theorem isDigit_ofNat (d : Nat) (h : d < 10) :
    (Char.ofNat (48 + d)).isDigit = true := by
  interval_cases d <;> decide

theorem digitsVal_append_digit (l : List Char) (c : Char) :
    digitsVal (l ++ [c]) = 10 * digitsVal l + digitVal c := by
  unfold digitsVal
  rw [List.foldl_append]
  rfl

theorem natCharsAux_zero (fuel : Nat) : natCharsAux fuel 0 = [] := by
  cases fuel <;> rfl

theorem natCharsAux_spec :
    ∀ fuel n : Nat, 0 < n → n ≤ fuel →
      digitsVal (natCharsAux fuel n) = n ∧
      (natCharsAux fuel n).all Char.isDigit = true ∧
      natCharsAux fuel n ≠ [] := by
  intro fuel
  induction fuel with
  | zero => intro n hn hle; omega
  | succ f ih =>
    intro n hn hle
    rw [natCharsAux, if_neg (by omega)]
    by_cases h10 : n / 10 = 0
    · have hsmall : n < 10 := by omega
      rw [h10, natCharsAux_zero]
      refine ⟨?_, ?_, by simp⟩
      · show digitsVal [Char.ofNat (48 + n % 10)] = n
        unfold digitsVal
        simp [digitVal_ofNat (n % 10) (by omega)]
        omega
      · simp [isDigit_ofNat (n % 10) (by omega)]
    · have hlt : n / 10 < n := Nat.div_lt_self hn (by norm_num)
      obtain ⟨ih1, ih2, ih3⟩ := ih (n / 10) (Nat.pos_of_ne_zero h10) (by omega)
      refine ⟨?_, ?_, by simp⟩
      · rw [digitsVal_append_digit, ih1, digitVal_ofNat (n % 10) (by omega)]
        omega
      · simp [List.all_append, ih2, isDigit_ofNat (n % 10) (by omega)]

theorem natChars_spec (n : Nat) :
    digitsVal (natChars n) = n ∧ (natChars n).all Char.isDigit = true ∧
      natChars n ≠ [] := by
  unfold natChars
  by_cases h : n = 0
  · subst h
    exact ⟨by decide, by decide, by decide⟩
  · rw [if_neg h]
    exact natCharsAux_spec n n (Nat.pos_of_ne_zero h) le_rfl

theorem foldl_digit_replicate_zero (k : Nat) :
    (List.replicate k '0').foldl (fun a c => 10 * a + digitVal c) 0 = 0 := by
  induction k with
  | zero => rfl
  | succ k ih =>
    rw [List.replicate_succ, List.foldl_cons]
    exact ih

theorem digitsVal_padStart2 (l : List Char) :
    digitsVal (padStart2 l) = digitsVal l := by
  unfold padStart2
  split_ifs with h
  · unfold digitsVal
    rw [List.foldl_append, foldl_digit_replicate_zero]
  · rfl

theorem all_padStart2 {l : List Char} (h : l.all Char.isDigit = true) :
    (padStart2 l).all Char.isDigit = true := by
  unfold padStart2
  split_ifs with hl
  · rw [List.all_append, h, Bool.and_true]
    rw [List.all_eq_true]
    intro c hc
    rw [List.eq_of_mem_replicate hc]
    decide
  · exact h

theorem padStart2_ne_nil (l : List Char) : padStart2 l ≠ [] := by
  unfold padStart2
  split_ifs with h
  · intro hc
    rcases List.append_eq_nil.mp hc with ⟨h1, h2⟩
    subst h2
    simp at h1
  · intro hc
    rw [hc] at h
    simp at h

theorem padStart2_len (l : List Char) : 2 ≤ (padStart2 l).length := by
  unfold padStart2
  split_ifs with h
  · rw [List.length_append, List.length_replicate]
    omega
  · omega

/-- Claim C9: for every non-negative integer n, formatSecondsToMMSS produces a
two-group minutes:seconds string with both components at least two digits, the
seconds component is n mod 60 and so lies in 0..59, and the two-group time
parser takes that string back to exactly n, also when n is at least 3600 and
the minutes component exceeds 59. -/
theorem C9_format_roundtrip (n : Nat) :
    time_to_seconds (formatSecondsToMMSS n) = (n : Int) ∧
    splitOnColon (formatSecondsToMMSS n) =
      [padStart2 (natChars (n / 60)), padStart2 (natChars (n % 60))] ∧
    2 ≤ (padStart2 (natChars (n / 60))).length ∧
    2 ≤ (padStart2 (natChars (n % 60))).length ∧
    digitsVal (padStart2 (natChars (n % 60))) = n % 60 ∧ n % 60 ≤ 59 := by
  obtain ⟨hv1, hd1, _⟩ := natChars_spec (n / 60)
  obtain ⟨hv2, hd2, _⟩ := natChars_spec (n % 60)
  have hda := all_padStart2 hd1
  have hdb := all_padStart2 hd2
  have hvala : digitsVal (padStart2 (natChars (n / 60))) = n / 60 := by
    rw [digitsVal_padStart2, hv1]
  have hvalb : digitsVal (padStart2 (natChars (n % 60))) = n % 60 := by
    rw [digitsVal_padStart2, hv2]
  refine ⟨?_, ?_, padStart2_len _, padStart2_len _, hvalb, by omega⟩
  · unfold formatSecondsToMMSS
    rw [time_to_seconds_two _ _ (padStart2_ne_nil _) (padStart2_ne_nil _)
      hda hdb (by rw [hvalb]; omega)]
    rw [hvala, hvalb]
    exact Nat.cast_inj.mpr (by omega)
  · unfold formatSecondsToMMSS
    rw [splitOnColon_append _ _ (all_digit_no_colon hda),
      splitOnColon_no_colon _ (all_digit_no_colon hdb)]

/-- Claim C10: with the navigation callback present, handleTimestampClick
invokes it with the record's seconds exactly when that value lies in 0..7200;
without regard to the callback no navigation happens outside that range; and
the navigateToTime copy embedded in the extension bundle only ever touches the
player with an offset inside 0..7200. -/
theorem C10_click_navigation_guard :
    (∀ ts : Timestamp, handleTimestampClick true ts = some ts.seconds ↔
      0 ≤ ts.seconds ∧ ts.seconds ≤ 7200) ∧
    (∀ (cb : Bool) (ts : Timestamp), handleTimestampClick cb ts ≠ none →
      0 ≤ ts.seconds ∧ ts.seconds ≤ 7200) ∧
    (∀ (ifr vid : Bool) (s x : Int), navigateToTime ifr vid s = some x →
      x = s ∧ 0 ≤ s ∧ s ≤ 7200) := by
  refine ⟨fun ts => ?_, fun cb ts h => ?_, fun ifr vid s x h => ?_⟩
  · constructor
    · intro h
      unfold handleTimestampClick at h
      split_ifs at h
      simp_all
    · rintro ⟨h1, h2⟩
      unfold handleTimestampClick
      rw [if_neg (by omega), if_neg (by omega)]
      simp
  · unfold handleTimestampClick at h
    split_ifs at h <;> simp_all
  · unfold navigateToTime at h
    split_ifs at h
    simp_all

/-- Witness for claim C10 at the in-range offset 100. -/
theorem C10_click_navigation_guard_witness :
    handleTimestampClick true ⟨("01:40").toList, [], 100⟩ = some 100 ∧
    ((0 : Int) ≤ 100 ∧ (100 : Int) ≤ 7200) :=
  ⟨(C10_click_navigation_guard.1 ⟨("01:40").toList, [], 100⟩).mpr (by decide),
   (C10_click_navigation_guard.2.2 true true 100 100 (by decide)).2⟩

end VideoMind
